import Mathlib

/-!
Verification of the EduGap analysis pipeline (EduGap_Analysis_Notebook).

The notebook is a linear pandas pipeline: load → clean → encode categorical
features → derive gain columns → construct binary labels (two labeling cells)
→ train/evaluate → group aggregation (`averages_calculate`, `bar_graph`).

This file embeds the label/aggregation pipeline shallowly:
  * numeric score values are rationals (the idealized value of the
    floating-point numbers the notebook manipulates);
  * a dataframe is a list of rows; derived columns become derived structures;
  * pandas `Series.quantile` / `np.quantile` (default linear interpolation)
    is `quantileLinear`;
  * `Series.map` with a dict (which yields NaN on missing keys) becomes an
    `Option`-returning encoder;
  * the hard-coded renaming `grouped.columns = ['Below Average', 'Above
    Average']`, which raises a length-mismatch `ValueError` when the
    unstacked label column does not have exactly two distinct values,
    becomes an `Except` result.
-/

namespace EduGap

/-- A raw survey row restricted to the six score columns the labeling cells
read (pre- and post-training scores for the three skill domains). -/
structure Row where
  Basic_Computer_Knowledge_Score : ℚ
  Internet_Usage_Score : ℚ
  Mobile_Literacy_Score : ℚ
  Post_Training_Basic_Computer_Knowledge_Score : ℚ
  Post_Training_Internet_Usage_Score : ℚ
  Post_Training_Mobile_Literacy_Score : ℚ
deriving DecidableEq

/-- A row after the gain-column cell has run: the three derived
`{Domain}_Gain` columns are attached. -/
structure RowG extends Row where
  Computer_Gain : ℚ
  Internet_Gain : ℚ
  Mobile_Gain : ℚ
deriving DecidableEq

/-- Embeds the gain-column cell:
`data['Computer_Gain'] = data['Post_Training_Basic_Computer_Knowledge_Score'] - data['Basic_Computer_Knowledge_Score']`
and likewise for the internet and mobile domains. -/
def addGainColumns (r : Row) : RowG :=
  { toRow := r
    Computer_Gain :=
      r.Post_Training_Basic_Computer_Knowledge_Score - r.Basic_Computer_Knowledge_Score
    Internet_Gain := r.Post_Training_Internet_Usage_Score - r.Internet_Usage_Score
    Mobile_Gain := r.Post_Training_Mobile_Literacy_Score - r.Mobile_Literacy_Score }

/-- The six binary label columns written by each labeling cell. -/
structure LabelCols where
  Computer_Skill_Label : ℕ
  Internet_Usage_Label : ℕ
  Mobile_Literacy_Label : ℕ
  Computer_Gain_Label : ℕ
  Internet_Gain_Label : ℕ
  Mobile_Gain_Label : ℕ
deriving DecidableEq

/-- Embeds the first labeling cell ("Categorize and Labels"). Note that the
thresholds in the source are the literal constants 25, 25 and 26 (not a
computed median), and that all six labels — the three gain labels included —
are computed from the three pre-training score columns:
`data['Computer_Gain_Label'] = data['Basic_Computer_Knowledge_Score'].apply(lambda x: 0 if x <= 25 else 1)` etc. -/
def medianSplitLabels (r : RowG) : LabelCols :=
  { Computer_Skill_Label := if r.Basic_Computer_Knowledge_Score ≤ 25 then 0 else 1
    Internet_Usage_Label := if r.Internet_Usage_Score ≤ 25 then 0 else 1
    Mobile_Literacy_Label := if r.Mobile_Literacy_Score ≤ 26 then 0 else 1
    Computer_Gain_Label := if r.Basic_Computer_Knowledge_Score ≤ 25 then 0 else 1
    Internet_Gain_Label := if r.Internet_Usage_Score ≤ 25 then 0 else 1
    Mobile_Gain_Label := if r.Mobile_Literacy_Score ≤ 26 then 0 else 1 }

/-- The q-th quantile of a list of rationals with linear interpolation,
as computed by `pandas.Series.quantile` and `numpy.quantile` with the
default `interpolation='linear'`: with the values sorted ascending as
`v_0 ≤ … ≤ v_(n-1)` and `h = q * (n - 1)`, the result is
`v_k + (h - k) * (v_(k+1) - v_k)` for `k = ⌊h⌋` (the upper index clamped
to `n - 1`). -/
def quantileLinear (vs : List ℚ) (q : ℚ) : ℚ :=
  let s := List.insertionSort (· ≤ ·) vs
  let n := s.length
  let h := q * ((n : ℚ) - 1)
  let k := (Int.floor h).toNat
  let f := h - (k : ℚ)
  let a := s.getD k 0
  let b := s.getD (min (k + 1) (n - 1)) 0
  a + f * (b - a)

/-- The pandas median of a numeric column: the 0.5 quantile with linear
interpolation. (The notebook never calls `.median()`; this definition is
modelled from the spec's words "threshold = median(C)" and is used to state
the spec's median-split claim against the code.) -/
def pandasMedian (vs : List ℚ) : ℚ := quantileLinear vs (1 / 2)

/-- Modelled from the spec: "label = 0 if value ≤ threshold else 1" with
"threshold = median(C) computed over the full (or filtered) dataset". Used
to compare the spec's described median-split against the labeling cell. -/
def specMedianLabel (col : List ℚ) (x : ℚ) : ℕ :=
  if x ≤ pandasMedian col then 0 else 1

/-- Embeds the second labeling cell: each label is
`0 if x <= quantile else 1`, where the access thresholds are
`data[score].quantile(0.63 / 0.56 / 0.69)` of the same score column, and the
gain thresholds are `np.quantile(data[gain], .56 / .55 / .6)` of the gain
columns — while the lambda still runs over the pre-training score columns. -/
def quantileSplitLabels (df : List RowG) (r : RowG) : LabelCols :=
  { Computer_Skill_Label :=
      if r.Basic_Computer_Knowledge_Score ≤
          quantileLinear (df.map (·.Basic_Computer_Knowledge_Score)) (63 / 100) then 0 else 1
    Internet_Usage_Label :=
      if r.Internet_Usage_Score ≤
          quantileLinear (df.map (·.Internet_Usage_Score)) (56 / 100) then 0 else 1
    Mobile_Literacy_Label :=
      if r.Mobile_Literacy_Score ≤
          quantileLinear (df.map (·.Mobile_Literacy_Score)) (69 / 100) then 0 else 1
    Computer_Gain_Label :=
      if r.Basic_Computer_Knowledge_Score ≤
          quantileLinear (df.map (·.Computer_Gain)) (56 / 100) then 0 else 1
    Internet_Gain_Label :=
      if r.Internet_Usage_Score ≤
          quantileLinear (df.map (·.Internet_Gain)) (55 / 100) then 0 else 1
    Mobile_Gain_Label :=
      if r.Mobile_Literacy_Score ≤
          quantileLinear (df.map (·.Mobile_Gain)) (60 / 100) then 0 else 1 }

/-- Embeds `data['gender'].map({'M': 0, 'F': 1})`: a pandas dict-`map`
yields a missing value (NaN, here `none`) for keys absent from the dict. -/
def encodeGender (s : String) : Option ℤ :=
  if s = "M" then some 0 else if s = "F" then some 1 else none

/-- Embeds `data['education'].map({'none': 0, 'high school': 1, 'some college': 2, 'associate': 3, 'bachelor': 4, 'master': 5})`. -/
def encodeEducation (s : String) : Option ℤ :=
  if s = "none" then some 0
  else if s = "high school" then some 1
  else if s = "some college" then some 2
  else if s = "associate" then some 3
  else if s = "bachelor" then some 4
  else if s = "master" then some 5
  else none

/-- Embeds `data['employment'].map({'unemployed': 0, 'part-time': 1, 'full-time': 2})`. -/
def encodeEmployment (s : String) : Option ℤ :=
  if s = "unemployed" then some 0
  else if s = "part-time" then some 1
  else if s = "full-time" then some 2
  else none

/-- A row in which all six score columns hold the same value `x`;
convenient for concrete datasets exercising one column at a time. -/
def rowAll (x : ℚ) : RowG :=
  addGainColumns ⟨x, x, x, x, x, x⟩

/-- A row whose pre-training computer score is `p` and post-training
computer score is `p'` (the other columns are zero). -/
def rowComputer (p p' : ℚ) : RowG :=
  addGainColumns ⟨p, 0, 0, p', 0, 0⟩

/-- A two-row dataset exhibiting two rows with identical `Computer_Gain`
but different pre-training computer scores on either side of the gain
column's 0.56 quantile. -/
def dfGainCex : List RowG := [rowComputer 30 35, rowComputer 2 7]

/-- A three-row dataset whose `Basic_Computer_Knowledge_Score` column is
`[10, 12, 20]` (median 12, below the hard-coded threshold 25). -/
def dfMedianCex : List RowG := [rowAll 10, rowAll 12, rowAll 20]

/-- A dataframe row as seen by the group-aggregation functions: the
demographic columns are accessed by name through `cols`, and the selected
binary label column is projected into `label`. -/
structure GRow where
  cols : String → String
  label : ℕ

/-- The distinct values of a label column, sorted ascending: the columns of
`value_counts().unstack()` (pandas sorts the unstacked column index). -/
def distinctLabels (df : List GRow) : List ℕ :=
  List.insertionSort (· ≤ ·) (df.map (·.label)).dedup

/-- The smaller of the two distinct label values: after the renaming
`grouped.columns = ['Below Average', 'Above Average']`, its column is the
one called `'Below Average'`. -/
def belowLabel (df : List GRow) : ℕ := (distinctLabels df).getD 0 0

/-- The larger distinct label value, renamed to `'Above Average'`. -/
def aboveLabel (df : List GRow) : ℕ := (distinctLabels df).getD 1 0

/-- The group keys produced by `df.groupby(group_col)`: the distinct values
of the group column, sorted ascending (pandas `groupby` sorts keys). -/
def groupKeys (df : List GRow) (group_col : String) : List String :=
  List.insertionSort (· ≤ ·) (df.map (fun r => r.cols group_col)).dedup

/-- The rows of one group. -/
def groupRows (df : List GRow) (group_col g : String) : List GRow :=
  df.filter (fun r => r.cols group_col = g)

/-- The `'Below Average'` entry of a group after
`value_counts(normalize=True).unstack().fillna(0)`: the fraction of the
group's rows whose label is the smaller distinct label value (0 when the
group has no such row, by `fillna(0)`). -/
def belowProp (df : List GRow) (group_col g : String) : ℚ :=
  ((groupRows df group_col g).countP (fun r => r.label = belowLabel df) : ℚ)
    / ((groupRows df group_col g).length : ℚ)

/-- The `'Above Average'` entry of a group. -/
def aboveProp (df : List GRow) (group_col g : String) : ℚ :=
  ((groupRows df group_col g).countP (fun r => r.label = aboveLabel df) : ℚ)
    / ((groupRows df group_col g).length : ℚ)

/-- Embeds `averages_calculate(df, group_col, label_col)`: group by the
group column, compute per-group normalized label proportions, rename the
two unstacked columns to Below/Above Average and report the table. When the
unstacked label column does not have exactly two distinct values, the
renaming raises a length-mismatch `ValueError`, embedded as `.error`. -/
def averages_calculate (df : List GRow) (group_col : String) :
    Except String (List (String × (ℚ × ℚ))) :=
  if (distinctLabels df).length = 2 then
    .ok ((groupKeys df group_col).map (fun g =>
      (g, (belowProp df group_col g, aboveProp df group_col g))))
  else .error "Length mismatch: Expected axis has elements other than 2"

/-- One iteration of the loop in `bar_graph`: group by one group column,
take the `'Below Average'` column, `sort_values(ascending=False)` (numpy's
sort on the small arrays involved keeps equal keys in their incoming,
group-key-sorted order, so it is embedded as a stable descending sort),
`head(top_n)`, and tag each surviving group as `"{group}: {idx}"`. -/
def topWorst (df : List GRow) (group_col : String) (top_n : ℕ) :
    List (String × ℚ) :=
  let grouped := (groupKeys df group_col).map (fun g => (g, belowProp df group_col g))
  let sorted := List.insertionSort (fun x y : String × ℚ => y.2 ≤ x.2) grouped
  (sorted.take top_n).map (fun p => (group_col ++ ": " ++ p.1, p.2))

/-- Embeds `bar_graph(df, group_cols, label_col, top_n, ...)`: for each
group column in turn, rank its groups by descending Below-Average proportion,
keep the top `top_n`, and append the tagged results to one combined list.
The first iteration raises the same length-mismatch `ValueError` as
`averages_calculate` when the label column does not have exactly two
distinct values; with no group columns the loop body never runs. -/
def bar_graph (df : List GRow) (group_cols : List String) (top_n : ℕ) :
    Except String (List (String × ℚ)) :=
  if group_cols = [] then .ok []
  else if (distinctLabels df).length = 2 then
    .ok (group_cols.flatMap (fun g => topWorst df g top_n))
  else .error "Length mismatch: Expected axis has elements other than 2"

/-- A row with a single group column value and a label. -/
def gRow (g : String) (l : ℕ) : GRow := ⟨fun _ => g, l⟩

/-- A two-group dataset with one label-0 and one label-1 row in the single
group `"x"`. -/
def dfHalf : List GRow := [gRow "x" 0, gRow "x" 1]

/-- A single-class dataset: every row carries label 0. -/
def dfSingle : List GRow := [gRow "x" 0]

/-- Groups `"b"` and `"a"` (first seen in that order) are fully
below-average, tying at proportion 1; group `"c"` supplies the second label
class. -/
def dfTie : List GRow := [gRow "b" 0, gRow "a" 0, gRow "c" 1]

/-- `dfTie` with the rows of groups `"a"` and `"b"` swapped, so the
first-seen group order is `"a"` then `"b"`. -/
def dfTieSwap : List GRow := [gRow "a" 0, gRow "b" 0, gRow "c" 1]

/-- The spec's `top_n_worst_groups` scenario: three groups whose
below-average proportions are 0.8 (`"u"`: 4 of 5), 0.3 (`"v"`: 3 of 10) and
0.9 (`"w"`: 9 of 10). -/
def dfScenario : List GRow :=
  List.replicate 4 (gRow "u" 0) ++ [gRow "u" 1] ++
  List.replicate 3 (gRow "v" 0) ++ List.replicate 7 (gRow "v" 1) ++
  List.replicate 9 (gRow "w" 0) ++ [gRow "w" 1]

/-- Four rows with a constant score column: the 0.63 quantile equals the
common value, so every row is labeled 0. -/
def dfConst : List RowG := [rowAll 10, rowAll 10, rowAll 10, rowAll 10]

/-- Four rows with pairwise-distinct scores. -/
def dfDistinct : List RowG := [rowAll 10, rowAll 20, rowAll 30, rowAll 40]

instance : IsTotal (String × ℚ) (fun x y => y.2 ≤ x.2) :=
  ⟨fun a b => le_total b.2 a.2⟩

instance : IsTrans (String × ℚ) (fun x y => y.2 ≤ x.2) :=
  ⟨fun _ _ _ hab hbc => le_trans hbc hab⟩


/-- String order agrees with lexicographic order on the character lists;
forward direction packaged for rewriting concrete comparisons. -/
theorem strLe_of_toList {s t : String} (h : s.toList ≤ t.toList) : s ≤ t :=
  String.le_iff_toList_le.mpr h

/-- Negated companion of `strLe_of_toList`. -/
theorem strNotLe_of_toList {s t : String} (h : ¬s.toList ≤ t.toList) : ¬s ≤ t :=
  fun hc => h (String.le_iff_toList_le.mp hc)

/-- Every row's label occurs among the distinct label values. -/
theorem mem_distinctLabels {df : List GRow} {r : GRow} (hr : r ∈ df) :
    r.label ∈ distinctLabels df := by
  unfold distinctLabels
  rw [(List.perm_insertionSort _ _).mem_iff]
  exact List.mem_dedup.mpr (List.mem_map_of_mem _ hr)

/-- The distinct label values are pairwise distinct. -/
theorem nodup_distinctLabels (df : List GRow) : (distinctLabels df).Nodup :=
  (List.perm_insertionSort _ _).nodup_iff.mpr (List.nodup_dedup _)

/-- With exactly two distinct label values, they are `belowLabel` and
`aboveLabel`, and these differ. -/
theorem two_labels {df : List GRow} (h2 : (distinctLabels df).length = 2) :
    distinctLabels df = [belowLabel df, aboveLabel df] ∧
      belowLabel df ≠ aboveLabel df := by
  obtain ⟨a, b, hab⟩ := List.length_eq_two.mp h2
  have hnd := nodup_distinctLabels df
  rw [hab] at hnd
  have hne : a ≠ b := by simpa using hnd
  refine ⟨?_, ?_⟩ <;> simp [belowLabel, aboveLabel, hab, hne]

/-- Group keys are exactly the values taken by the group column. -/
theorem mem_groupKeys {df : List GRow} {c g : String} :
    g ∈ groupKeys df c ↔ ∃ r ∈ df, r.cols c = g := by
  unfold groupKeys
  rw [(List.perm_insertionSort _ _).mem_iff, List.mem_dedup, List.mem_map]

/-- Counting two mutually exclusive, jointly exhaustive label values
accounts for every row. -/
theorem countP_pair {l : List GRow} {a b : ℕ} (hab : a ≠ b)
    (hmem : ∀ r ∈ l, r.label = a ∨ r.label = b) :
    l.countP (fun r => r.label = a) + l.countP (fun r => r.label = b)
      = l.length := by
  induction l with
  | nil => simp
  | cons x xs ih =>
    have hx := hmem x (by simp)
    have ih' := ih (fun r hr => hmem r (List.mem_cons_of_mem _ hr))
    simp only [List.countP_cons, List.length_cons, decide_eq_true_eq]
    rcases hx with h | h
    · rw [if_pos h, if_neg (show ¬x.label = b by rw [h]; exact hab)]
      omega
    · rw [if_neg (show ¬x.label = a by rw [h]; exact fun hc => hab hc.symm),
        if_pos h]
      omega

/-- Claim C1 (counterexample): the first labeling cell does not threshold at
the dataset median. On the dataset with computer scores `[10, 12, 20]` the
median is 12, so the spec's median-split labels the score-20 row `1`, but
the cell (which compares against the literal 25) labels it `0`. -/
theorem C1_median_cex :
    pandasMedian (dfMedianCex.map (·.Basic_Computer_Knowledge_Score)) = 12 ∧
    specMedianLabel (dfMedianCex.map (·.Basic_Computer_Knowledge_Score)) 20 = 1 ∧
    (medianSplitLabels (rowAll 20)).Computer_Skill_Label = 0 := by
  refine ⟨?_, ?_, ?_⟩ <;>
    norm_num [dfMedianCex, rowAll, addGainColumns, specMedianLabel, pandasMedian,
      quantileLinear, List.insertionSort, List.orderedInsert, medianSplitLabels]

/-- Claim C1 (amended): the first labeling cell thresholds each score column
at a fixed per-domain constant (25 for computer, 25 for internet, 26 for
mobile), labeling 0 at-or-below and 1 above; on the computer column — whose
constant 25 equals the scenario's hand-computed median — the boundary values
24, 25, 26 receive labels 0, 0, 1. -/
theorem C1_fixed_threshold_labels :
    (∀ r : RowG,
      (medianSplitLabels r).Computer_Skill_Label
          = (if r.Basic_Computer_Knowledge_Score ≤ 25 then 0 else 1) ∧
      (medianSplitLabels r).Internet_Usage_Label
          = (if r.Internet_Usage_Score ≤ 25 then 0 else 1) ∧
      (medianSplitLabels r).Mobile_Literacy_Label
          = (if r.Mobile_Literacy_Score ≤ 26 then 0 else 1)) ∧
    (medianSplitLabels (rowAll 24)).Computer_Skill_Label = 0 ∧
    (medianSplitLabels (rowAll 25)).Computer_Skill_Label = 0 ∧
    (medianSplitLabels (rowAll 26)).Computer_Skill_Label = 1 := by
  refine ⟨fun r => ⟨rfl, rfl, rfl⟩, ?_, ?_, ?_⟩ <;>
    norm_num [rowAll, addGainColumns, medianSplitLabels]

/-- Claim C2 (code evaluated at the failing input): in both labeling cells
the `Computer_Gain_Label` is computed from the pre-training
`Basic_Computer_Knowledge_Score`, not from `Computer_Gain`. The rows
(pre 30, post 35) and (pre 2, post 7) have the identical gain 5 yet receive
different gain labels in both cells, so the gain label is not a function of
the gain value. -/
theorem C2_gain_label_reads_pre_score :
    (rowComputer 30 35).Computer_Gain = 5 ∧
    (rowComputer 2 7).Computer_Gain = 5 ∧
    (medianSplitLabels (rowComputer 30 35)).Computer_Gain_Label = 1 ∧
    (medianSplitLabels (rowComputer 2 7)).Computer_Gain_Label = 0 ∧
    (quantileSplitLabels dfGainCex (rowComputer 30 35)).Computer_Gain_Label = 1 ∧
    (quantileSplitLabels dfGainCex (rowComputer 2 7)).Computer_Gain_Label = 0 := by
  refine ⟨?_, ?_, ?_, ?_, ?_, ?_⟩ <;>
    norm_num [dfGainCex, rowComputer, addGainColumns, medianSplitLabels,
      quantileSplitLabels, quantileLinear, List.insertionSort, List.orderedInsert]

/-- Claim C3: the second labeling cell sets, for every dataset and row, each
label to `0` iff the labeled value is at or below the q-th linear quantile of
the configured source column — access computer/internet/mobile compare the
score against the 0.63/0.56/0.69 quantile of the same score column, and the
gain labels compare the pre-training score against the 0.56/0.55/0.60
quantile of the corresponding gain column; the pass is deterministic in the
dataset snapshot and configuration. -/
theorem C3_quantile_split (df : List RowG) (r : RowG) :
    (quantileSplitLabels df r).Computer_Skill_Label
        = (if r.Basic_Computer_Knowledge_Score
            ≤ quantileLinear (df.map (·.Basic_Computer_Knowledge_Score)) (63 / 100)
           then 0 else 1) ∧
    (quantileSplitLabels df r).Internet_Usage_Label
        = (if r.Internet_Usage_Score
            ≤ quantileLinear (df.map (·.Internet_Usage_Score)) (56 / 100)
           then 0 else 1) ∧
    (quantileSplitLabels df r).Mobile_Literacy_Label
        = (if r.Mobile_Literacy_Score
            ≤ quantileLinear (df.map (·.Mobile_Literacy_Score)) (69 / 100)
           then 0 else 1) ∧
    (quantileSplitLabels df r).Computer_Gain_Label
        = (if r.Basic_Computer_Knowledge_Score
            ≤ quantileLinear (df.map (·.Computer_Gain)) (56 / 100)
           then 0 else 1) ∧
    (quantileSplitLabels df r).Internet_Gain_Label
        = (if r.Internet_Usage_Score
            ≤ quantileLinear (df.map (·.Internet_Gain)) (55 / 100)
           then 0 else 1) ∧
    (quantileSplitLabels df r).Mobile_Gain_Label
        = (if r.Mobile_Literacy_Score
            ≤ quantileLinear (df.map (·.Mobile_Gain)) (60 / 100)
           then 0 else 1) ∧
    (∀ df2 r2, df2 = df → r2 = r →
      quantileSplitLabels df2 r2 = quantileSplitLabels df r) := by
  refine ⟨rfl, rfl, rfl, rfl, rfl, rfl, ?_⟩
  intro df2 r2 hdf hr
  rw [hdf, hr]

/-- Claim C3 (witness): the determinism clause discharged at a concrete
dataset and row. -/
theorem C3_quantile_split_witness :
    quantileSplitLabels [rowAll 1, rowAll 2] (rowAll 1)
      = quantileSplitLabels [rowAll 1, rowAll 2] (rowAll 1) :=
  (C3_quantile_split [rowAll 1, rowAll 2] (rowAll 1)).2.2.2.2.2.2
    [rowAll 1, rowAll 2] (rowAll 1) rfl rfl

/-- Claim C5: for every row, each derived gain column equals exactly the
post-training score minus the pre-training score, and a negative difference
(post < pre) is stored unchanged — concretely, pre 30 / post 25 yields the
gain −5. -/
theorem C5_gain_is_post_minus_pre :
    (∀ r : Row,
      (addGainColumns r).Computer_Gain
          = r.Post_Training_Basic_Computer_Knowledge_Score
              - r.Basic_Computer_Knowledge_Score ∧
      (addGainColumns r).Internet_Gain
          = r.Post_Training_Internet_Usage_Score - r.Internet_Usage_Score ∧
      (addGainColumns r).Mobile_Gain
          = r.Post_Training_Mobile_Literacy_Score - r.Mobile_Literacy_Score) ∧
    (rowComputer 30 25).Computer_Gain = -5 := by
  refine ⟨fun r => ⟨rfl, rfl, rfl⟩, ?_⟩
  norm_num [rowComputer, addGainColumns]

/-- Claim C6 (counterexample): `'other'` has no entry in the gender mapping,
yet the encoder produces the missing value `none` rather than failing — the
claim that unmapped categories are surfaced as an UnknownCategory error is
false (likewise for education and employment). -/
theorem C6_unknown_category_cex :
    ("other" ≠ "M" ∧ "other" ≠ "F") ∧ encodeGender "other" = none ∧
    encodeEducation "phd" = none ∧ encodeEmployment "retired" = none := by
  refine ⟨⟨?_, ?_⟩, ?_, ?_, ?_⟩ <;> decide

/-- Claim C6 (amended): for every categorical value with no entry in the
fixed mapping, the encoder silently coerces it to a missing value (`none`,
the embedding of pandas NaN); no error is raised. -/
theorem C6_unmapped_coerced_to_missing (s : String) :
    (s ≠ "M" → s ≠ "F" → encodeGender s = none) ∧
    (s ≠ "none" → s ≠ "high school" → s ≠ "some college" → s ≠ "associate" →
      s ≠ "bachelor" → s ≠ "master" → encodeEducation s = none) ∧
    (s ≠ "unemployed" → s ≠ "part-time" → s ≠ "full-time" →
      encodeEmployment s = none) := by
  refine ⟨?_, ?_, ?_⟩ <;> intros <;>
    simp [encodeGender, encodeEducation, encodeEmployment, *]

/-- Claim C6 (witness): the amended behavior at concrete unmapped values. -/
theorem C6_unmapped_coerced_to_missing_witness :
    encodeGender "other" = none ∧ encodeEducation "phd" = none ∧
    encodeEmployment "retired" = none :=
  ⟨(C6_unmapped_coerced_to_missing "other").1 (by decide) (by decide),
   (C6_unmapped_coerced_to_missing "phd").2.1 (by decide) (by decide)
     (by decide) (by decide) (by decide) (by decide),
   (C6_unmapped_coerced_to_missing "retired").2.2 (by decide) (by decide)
     (by decide)⟩

/-- Claim C10: both labeling passes are total and write only 0 or 1 into
every label column, for every dataset and row. -/
theorem C10_labels_binary (df : List RowG) (r : RowG) :
    ((medianSplitLabels r).Computer_Skill_Label = 0 ∨
      (medianSplitLabels r).Computer_Skill_Label = 1) ∧
    ((medianSplitLabels r).Internet_Usage_Label = 0 ∨
      (medianSplitLabels r).Internet_Usage_Label = 1) ∧
    ((medianSplitLabels r).Mobile_Literacy_Label = 0 ∨
      (medianSplitLabels r).Mobile_Literacy_Label = 1) ∧
    ((medianSplitLabels r).Computer_Gain_Label = 0 ∨
      (medianSplitLabels r).Computer_Gain_Label = 1) ∧
    ((medianSplitLabels r).Internet_Gain_Label = 0 ∨
      (medianSplitLabels r).Internet_Gain_Label = 1) ∧
    ((medianSplitLabels r).Mobile_Gain_Label = 0 ∨
      (medianSplitLabels r).Mobile_Gain_Label = 1) ∧
    ((quantileSplitLabels df r).Computer_Skill_Label = 0 ∨
      (quantileSplitLabels df r).Computer_Skill_Label = 1) ∧
    ((quantileSplitLabels df r).Internet_Usage_Label = 0 ∨
      (quantileSplitLabels df r).Internet_Usage_Label = 1) ∧
    ((quantileSplitLabels df r).Mobile_Literacy_Label = 0 ∨
      (quantileSplitLabels df r).Mobile_Literacy_Label = 1) ∧
    ((quantileSplitLabels df r).Computer_Gain_Label = 0 ∨
      (quantileSplitLabels df r).Computer_Gain_Label = 1) ∧
    ((quantileSplitLabels df r).Internet_Gain_Label = 0 ∨
      (quantileSplitLabels df r).Internet_Gain_Label = 1) ∧
    ((quantileSplitLabels df r).Mobile_Gain_Label = 0 ∨
      (quantileSplitLabels df r).Mobile_Gain_Label = 1) := by
  simp only [medianSplitLabels, quantileSplitLabels]
  refine ⟨?_, ?_, ?_, ?_, ?_, ?_, ?_, ?_, ?_, ?_, ?_, ?_⟩ <;> split <;> simp

/-- Claim C7: whenever `averages_calculate` returns a table, every listed
group's proportion pair (Below Average, Above Average) sums to exactly 1
(hence within 1e-9 of 1.0), and a group with zero rows for one of the two
classes gets proportion 0 for that class. -/
theorem C7_group_distribution (df : List GRow) (gcol : String)
    (m : List (String × (ℚ × ℚ))) (g : String) (p : ℚ × ℚ)
    (hok : averages_calculate df gcol = .ok m) (hmem : (g, p) ∈ m) :
    p.1 + p.2 = 1 ∧
    |p.1 + p.2 - 1| ≤ 1 / 1000000000 ∧
    ((groupRows df gcol g).countP (fun r => r.label = belowLabel df) = 0 →
      p.1 = 0) ∧
    ((groupRows df gcol g).countP (fun r => r.label = aboveLabel df) = 0 →
      p.2 = 0) := by
  unfold averages_calculate at hok
  split at hok
  case isFalse => cases hok
  case isTrue h2 =>
    rw [Except.ok.injEq] at hok
    subst hok
    rw [List.mem_map] at hmem
    obtain ⟨g', hg', heq⟩ := hmem
    rw [Prod.mk.injEq] at heq
    obtain ⟨rfl, rfl⟩ := heq
    obtain ⟨r0, hr0, hr0g⟩ := mem_groupKeys.mp hg'
    have hr0grp : r0 ∈ groupRows df gcol g' :=
      List.mem_filter.mpr ⟨hr0, by simp [hr0g]⟩
    have hlen : 0 < (groupRows df gcol g').length := List.length_pos.mpr
      (fun hnil => by rw [hnil] at hr0grp; cases hr0grp)
    have hn0 : ((groupRows df gcol g').length : ℚ) ≠ 0 := by
      exact_mod_cast Nat.pos_iff_ne_zero.mp hlen
    obtain ⟨hlv, hab⟩ := two_labels h2
    have hcnt : (groupRows df gcol g').countP (fun r => r.label = belowLabel df)
        + (groupRows df gcol g').countP (fun r => r.label = aboveLabel df)
        = (groupRows df gcol g').length := by
      refine countP_pair hab (fun r hr => ?_)
      have hrdf : r ∈ df := (List.mem_filter.mp hr).1
      have := mem_distinctLabels hrdf
      rw [hlv] at this
      simpa using this
    have hsum : belowProp df gcol g' + aboveProp df gcol g' = 1 := by
      rw [belowProp, aboveProp, div_add_div_same, ← Nat.cast_add, hcnt,
        div_self hn0]
    refine ⟨hsum, by rw [hsum]; norm_num, fun hz => ?_, fun hz => ?_⟩
    · rw [belowProp, hz]
      simp
    · rw [aboveProp, hz]
      simp

/-- Claim C7 (witness): on the two-row dataset `dfHalf` the single group
`"x"` receives the pair (1/2, 1/2), which sums to 1. -/
theorem C7_group_distribution_witness :
    averages_calculate dfHalf "c" = .ok [("x", ((1 : ℚ) / 2, (1 : ℚ) / 2))] ∧
    (1 : ℚ) / 2 + (1 : ℚ) / 2 = 1 := by
  have hkeys : groupKeys dfHalf "c" = ["x"] := by
    have h1 : (dfHalf.map (fun r => r.cols "c")).dedup = ["x"] := by decide
    rw [groupKeys, h1]
    rfl
  have hbelow : belowProp dfHalf "c" "x" = (1 : ℚ) / 2 := by
    have hc : (groupRows dfHalf "c" "x").countP
        (fun r => r.label = belowLabel dfHalf) = 1 := by decide
    have hl : (groupRows dfHalf "c" "x").length = 2 := by decide
    rw [belowProp, hc, hl]
    norm_num
  have habove : aboveProp dfHalf "c" "x" = (1 : ℚ) / 2 := by
    have hc : (groupRows dfHalf "c" "x").countP
        (fun r => r.label = aboveLabel dfHalf) = 1 := by decide
    have hl : (groupRows dfHalf "c" "x").length = 2 := by decide
    rw [aboveProp, hc, hl]
    norm_num
  have hok : averages_calculate dfHalf "c"
      = .ok [("x", ((1 : ℚ) / 2, (1 : ℚ) / 2))] := by
    rw [averages_calculate, if_pos (by decide), hkeys, List.map_cons,
      List.map_nil, hbelow, habove]
  exact ⟨hok,
    by simpa using
      (C7_group_distribution dfHalf "c" _ "x" ((1 : ℚ) / 2, (1 : ℚ) / 2) hok
        (by simp)).1⟩

/-- Claim C9: `averages_calculate` returns a table — and `bar_graph` (run
over at least one group column) returns a chart list — exactly when the
label column has two distinct values; otherwise both stop with the
length-mismatch error raised by the hard-coded renaming to
['Below Average', 'Above Average']. -/
theorem C9_two_class_required (df : List GRow) (gcol : String)
    (gcols : List String) (top_n : ℕ) (hne : gcols ≠ []) :
    ((∃ m, averages_calculate df gcol = .ok m) ↔
      (distinctLabels df).length = 2) ∧
    ((∃ L, bar_graph df gcols top_n = .ok L) ↔
      (distinctLabels df).length = 2) ∧
    ((distinctLabels df).length ≠ 2 →
      averages_calculate df gcol
          = .error "Length mismatch: Expected axis has elements other than 2" ∧
      bar_graph df gcols top_n
          = .error "Length mismatch: Expected axis has elements other than 2") := by
  refine ⟨⟨?_, ?_⟩, ⟨?_, ?_⟩, ?_⟩
  · rintro ⟨m, hm⟩
    unfold averages_calculate at hm
    split at hm
    case isTrue h => exact h
    case isFalse => cases hm
  · intro h2
    exact ⟨_, by rw [averages_calculate, if_pos h2]⟩
  · rintro ⟨L, hL⟩
    unfold bar_graph at hL
    split at hL
    case isTrue h => exact absurd h hne
    case isFalse =>
      split at hL
      case isTrue h => exact h
      case isFalse => cases hL
  · intro h2
    exact ⟨_, by rw [bar_graph, if_neg hne, if_pos h2]⟩
  · intro hn2
    exact ⟨by rw [averages_calculate, if_neg hn2],
      by rw [bar_graph, if_neg hne, if_neg hn2]⟩

/-- Claim C9 (witness): on the single-class dataset `dfSingle` both
functions stop with the length-mismatch error. -/
theorem C9_two_class_required_witness :
    averages_calculate dfSingle "c"
        = .error "Length mismatch: Expected axis has elements other than 2" ∧
    bar_graph dfSingle ["c"] 3
        = .error "Length mismatch: Expected axis has elements other than 2" :=
  (C9_two_class_required dfSingle "c" ["c"] 3 (by decide)).2.2 (by decide)

/-- Claim C8 (counterexample to the tie-breaking clause): in `dfTie` the
groups are first seen in the order `"b"`, `"a"` and tie at Below-Average
proportion 1, yet `bar_graph` lists `"a"` before `"b"` — and swapping the
two rows (`dfTieSwap`, first-seen order `"a"`, `"b"`) produces the identical
output, so ties cannot be broken by first-seen input order. -/
theorem C8_tie_order_cex :
    bar_graph dfTie ["g"] 2 = .ok [("g: a", 1), ("g: b", 1)] ∧
    bar_graph dfTieSwap ["g"] 2 = .ok [("g: a", 1), ("g: b", 1)] ∧
    belowProp dfTie "g" "a" = belowProp dfTie "g" "b" ∧
    dfTie.map (fun r => r.cols "g") = ["b", "a", "c"] ∧
    [(("g: a" : String), (1 : ℚ)), ("g: b", 1)] ≠ [("g: b", 1), ("g: a", 1)] := by
  have hbl : belowLabel dfTie = 0 := by decide
  have hbl2 : belowLabel dfTieSwap = 0 := by decide
  have ha : belowProp dfTie "g" "a" = 1 := by
    simp only [belowProp, groupRows, hbl]
    simp [dfTie, gRow]
  have hb : belowProp dfTie "g" "b" = 1 := by
    simp only [belowProp, groupRows, hbl]
    simp [dfTie, gRow]
  have hc : belowProp dfTie "g" "c" = 0 := by
    simp only [belowProp, groupRows, hbl]
    simp [dfTie, gRow]
  have ha2 : belowProp dfTieSwap "g" "a" = 1 := by
    simp only [belowProp, groupRows, hbl2]
    simp [dfTieSwap, gRow]
  have hb2 : belowProp dfTieSwap "g" "b" = 1 := by
    simp only [belowProp, groupRows, hbl2]
    simp [dfTieSwap, gRow]
  have hc2 : belowProp dfTieSwap "g" "c" = 0 := by
    simp only [belowProp, groupRows, hbl2]
    simp [dfTieSwap, gRow]
  have hkeys : groupKeys dfTie "g" = ["a", "b", "c"] := by
    have h1 : (dfTie.map (fun r => r.cols "g")).dedup = ["b", "a", "c"] := by
      decide
    rw [groupKeys, h1]
    simp only [List.insertionSort, List.orderedInsert]
    repeat first
      | rfl
      | (rw [if_neg (strNotLe_of_toList (by decide))])
      | (rw [if_pos (strLe_of_toList (by decide))])
      | (simp only [List.orderedInsert])
  have hkeys2 : groupKeys dfTieSwap "g" = ["a", "b", "c"] := by
    have h1 : (dfTieSwap.map (fun r => r.cols "g")).dedup = ["a", "b", "c"] := by
      decide
    rw [groupKeys, h1]
    simp only [List.insertionSort, List.orderedInsert]
    repeat first
      | rfl
      | (rw [if_neg (strNotLe_of_toList (by decide))])
      | (rw [if_pos (strLe_of_toList (by decide))])
      | (simp only [List.orderedInsert])
  have htop : topWorst dfTie "g" 2 = [("g: a", 1), ("g: b", 1)] := by
    rw [topWorst, hkeys]
    simp only [List.map_cons, List.map_nil, ha, hb, hc]
    norm_num [List.insertionSort, List.orderedInsert]
    exact ⟨by decide, by decide⟩
  have htop2 : topWorst dfTieSwap "g" 2 = [("g: a", 1), ("g: b", 1)] := by
    rw [topWorst, hkeys2]
    simp only [List.map_cons, List.map_nil, ha2, hb2, hc2]
    norm_num [List.insertionSort, List.orderedInsert]
    exact ⟨by decide, by decide⟩
  refine ⟨?_, ?_, ?_, by decide, by simp⟩
  · rw [bar_graph, if_neg (by simp), if_pos (by decide), List.flatMap_cons,
      htop]
    simp
  · rw [bar_graph, if_neg (by simp), if_pos (by decide), List.flatMap_cons,
      htop2]
    simp
  · rw [ha, hb]

/-- Claim C8 (amended): with a two-class label column, `bar_graph`
concatenates, over the supplied group columns in order, each column's
`topWorst` list; each such list is ranked by descending Below-Average
proportion, keeps `min top_n #groups` entries, and each entry is a group of
that column tagged `"column: group"` carrying the group's Below-Average
proportion; ties are broken by the stable descending sort applied to the
group-key-sorted table (hence by ascending group key), not by first-seen
input order; and on the spec's scenario (proportions 0.8, 0.3, 0.9 with
`top_n = 2`) the result is the 0.9 group followed by the 0.8 group. -/
theorem C8_top_n_worst_groups (df : List GRow) (gcols : List String)
    (gc : String) (top_n : ℕ) (h2 : (distinctLabels df).length = 2) :
    bar_graph df gcols top_n
        = .ok (gcols.flatMap (fun g => topWorst df g top_n)) ∧
    List.Sorted (fun x y : String × ℚ => y.2 ≤ x.2) (topWorst df gc top_n) ∧
    (topWorst df gc top_n).length = min top_n (groupKeys df gc).length ∧
    (∀ e ∈ topWorst df gc top_n,
      ∃ g ∈ groupKeys df gc, e = (gc ++ ": " ++ g, belowProp df gc g)) ∧
    bar_graph dfScenario ["g"] 2
        = .ok [("g: w", (9 : ℚ) / 10), ("g: u", (4 : ℚ) / 5)] := by
  refine ⟨?_, ?_, ?_, ?_, ?_⟩
  · match gcols with
    | [] => simp [bar_graph]
    | c :: cs => rw [bar_graph, if_neg (by simp), if_pos h2]
  · rw [topWorst]
    refine List.Pairwise.map _ (fun a b hab => hab) ?_
    exact List.Pairwise.sublist (List.take_sublist _ _)
      (List.sorted_insertionSort (fun x y : String × ℚ => y.2 ≤ x.2) _)
  · rw [topWorst]
    rw [List.length_map, List.length_take,
      (List.perm_insertionSort (fun x y : String × ℚ => y.2 ≤ x.2) _).length_eq,
      List.length_map]
  · intro e he
    rw [topWorst] at he
    obtain ⟨pq, hpq, rfl⟩ := List.mem_map.mp he
    have hpq2 : pq ∈ List.insertionSort (fun x y : String × ℚ => y.2 ≤ x.2)
        ((groupKeys df gc).map (fun g => (g, belowProp df gc g))) :=
      (List.take_sublist _ _).subset hpq
    rw [(List.perm_insertionSort _ _).mem_iff] at hpq2
    obtain ⟨g, hg, rfl⟩ := List.mem_map.mp hpq2
    exact ⟨g, hg, rfl⟩
  · have hbl : belowLabel dfScenario = 0 := by decide
    have hkeys : groupKeys dfScenario "g" = ["u", "v", "w"] := by
      have h1 : (dfScenario.map (fun r => r.cols "g")).dedup = ["u", "v", "w"] := by
        decide
      rw [groupKeys, h1]
      simp only [List.insertionSort, List.orderedInsert]
      repeat first
        | rfl
        | (rw [if_neg (strNotLe_of_toList (by decide))])
        | (rw [if_pos (strLe_of_toList (by decide))])
        | (simp only [List.orderedInsert])
    have hcu : (groupRows dfScenario "g" "u").countP
        (fun r => r.label = belowLabel dfScenario) = 4 := by rw [hbl]; decide
    have hnu : (groupRows dfScenario "g" "u").length = 5 := by decide
    have hcv : (groupRows dfScenario "g" "v").countP
        (fun r => r.label = belowLabel dfScenario) = 3 := by rw [hbl]; decide
    have hnv : (groupRows dfScenario "g" "v").length = 10 := by decide
    have hcw : (groupRows dfScenario "g" "w").countP
        (fun r => r.label = belowLabel dfScenario) = 9 := by rw [hbl]; decide
    have hnw : (groupRows dfScenario "g" "w").length = 10 := by decide
    have hu : belowProp dfScenario "g" "u" = 4 / 5 := by
      rw [belowProp, hcu, hnu]; norm_num
    have hv : belowProp dfScenario "g" "v" = 3 / 10 := by
      rw [belowProp, hcv, hnv]; norm_num
    have hw : belowProp dfScenario "g" "w" = 9 / 10 := by
      rw [belowProp, hcw, hnw]; norm_num
    have htop : topWorst dfScenario "g" 2
        = [("g: w", (9 : ℚ) / 10), ("g: u", (4 : ℚ) / 5)] := by
      rw [topWorst, hkeys]
      simp only [List.map_cons, List.map_nil, hu, hv, hw]
      norm_num [List.insertionSort, List.orderedInsert]
      exact ⟨by decide, by decide⟩
    rw [bar_graph, if_neg (by simp), if_pos (by decide), List.flatMap_cons,
      htop]
    simp

/-- Claim C8 (witness): the scenario conjunct extracted at the concrete
scenario dataset. -/
theorem C8_top_n_worst_groups_witness :
    bar_graph dfScenario ["g"] 2
        = .ok [("g: w", (9 : ℚ) / 10), ("g: u", (4 : ℚ) / 5)] :=
  (C8_top_n_worst_groups dfScenario ["g"] "g" 2 (by decide)).2.2.2.2

/-- Rows above and at-or-below a threshold together account for the whole
column. -/
theorem countP_le_add_countP_gt (l : List ℚ) (T : ℚ) :
    l.countP (fun x => decide (T < x)) + l.countP (fun x => decide (x ≤ T))
      = l.length := by
  induction l with
  | nil => rfl
  | cons x xs ih =>
    simp only [List.countP_cons, decide_eq_true_eq, List.length_cons]
    rcases le_or_lt x T with h | h
    · rw [if_neg (not_lt.mpr h), if_pos h]
      omega
    · rw [if_pos h, if_neg (not_le.mpr h)]
      omega

/-- Counting label 1 in a thresholded column counts the values above the
threshold. -/
theorem count_one_map_threshold (xs : List ℚ) (T : ℚ) :
    (xs.map (fun x => if x ≤ T then (0 : ℕ) else 1)).count 1
      = xs.countP (fun x => decide (T < x)) := by
  induction xs with
  | nil => rfl
  | cons x xs ih =>
    simp only [List.map_cons, List.count_cons, List.countP_cons,
      decide_eq_true_eq]
    rcases le_or_lt x T with h | h
    · rw [if_pos h, if_neg (not_lt.mpr h)]
      simp [ih]
    · rw [if_neg (not_le.mpr h), if_pos h]
      simp [ih]

/-- In a strictly sorted list, if position `k` is at or below `T` and
position `k + 1` (when it exists) is above `T`, then exactly the first
`k + 1` values are at or below `T`. -/
theorem countP_le_sorted (s : List ℚ) (T : ℚ) (k : ℕ)
    (hsorted : s.Pairwise (· < ·)) (hk : k < s.length)
    (hlow : s[k] ≤ T) (hhigh : ∀ _h1 : k + 1 < s.length, T < s[k + 1]) :
    s.countP (fun x => decide (x ≤ T)) = k + 1 := by
  have hidx := List.pairwise_iff_getElem.mp hsorted
  have htake : (s.take (k + 1)).countP (fun x => decide (x ≤ T))
      = (s.take (k + 1)).length := by
    rw [List.countP_eq_length]
    intro x hx
    obtain ⟨i, hi, hxi⟩ := List.mem_iff_getElem.mp hx
    rw [List.getElem_take] at hxi
    subst hxi
    rw [List.length_take] at hi
    simp only [decide_eq_true_eq]
    rcases Nat.lt_or_ge i k with hlt | hge
    · exact le_trans (le_of_lt (hidx i k (by omega) hk hlt)) hlow
    · have hik : i = k := by omega
      subst hik
      exact hlow
  have hdrop : (s.drop (k + 1)).countP (fun x => decide (x ≤ T)) = 0 := by
    rw [List.countP_eq_zero]
    intro x hx
    obtain ⟨j, hj, hxj⟩ := List.mem_iff_getElem.mp hx
    rw [List.getElem_drop] at hxj
    subst hxj
    rw [List.length_drop] at hj
    have hk1 : k + 1 < s.length := by omega
    have hT := hhigh hk1
    simp only [decide_eq_true_eq, not_le]
    rcases Nat.eq_zero_or_pos j with hj0 | hjpos
    · subst hj0
      simpa using hT
    · exact lt_trans hT (hidx (k + 1) (k + 1 + j) hk1 (by omega) (by omega))
  have hsplit : s.countP (fun x => decide (x ≤ T))
      = (s.take (k + 1)).countP (fun x => decide (x ≤ T))
        + (s.drop (k + 1)).countP (fun x => decide (x ≤ T)) := by
    conv_lhs => rw [← List.take_append_drop (k + 1) s]
    rw [List.countP_append]
  rw [hsplit, htake, hdrop, List.length_take]
  omega

/-- On an already (weakly) sorted list the internal sort of
`quantileLinear` is the identity, exposing the interpolation formula. -/
theorem quantileLinear_sorted_eq (s : List ℚ) (hs : s.Pairwise (· ≤ ·))
    (q : ℚ) :
    quantileLinear s q
      = s.getD ((Int.floor (q * ((s.length : ℚ) - 1))).toNat) 0
        + (q * ((s.length : ℚ) - 1)
            - (((Int.floor (q * ((s.length : ℚ) - 1))).toNat : ℚ)))
          * (s.getD (min ((Int.floor (q * ((s.length : ℚ) - 1))).toNat + 1)
                (s.length - 1)) 0
             - s.getD ((Int.floor (q * ((s.length : ℚ) - 1))).toNat) 0) := by
  unfold quantileLinear
  rw [List.Sorted.insertionSort_eq hs]

/-- The quantile of a column equals the quantile of its sorted version. -/
theorem quantileLinear_eq_sorted (vs : List ℚ) (q : ℚ) :
    quantileLinear vs q = quantileLinear (List.insertionSort (· ≤ ·) vs) q := by
  unfold quantileLinear
  rw [List.Sorted.insertionSort_eq (List.sorted_insertionSort (· ≤ ·) vs)]

/-- Core of the quantile-proportion property: on a strictly sorted column
of `n` values, the number of values strictly above the q-th linear quantile
is `n - (⌊q(n-1)⌋ + 1)`, so the label-1 proportion deviates from `1 - q` by
at most `1/n`. -/
theorem quantile_label_bound_sorted (s : List ℚ) (q : ℚ)
    (hsorted : s.Pairwise (· < ·)) (hne : s ≠ []) (hq0 : 0 ≤ q)
    (hq1 : q ≤ 1) :
    |((s.countP (fun x => decide (quantileLinear s q < x)) : ℚ)) / s.length
        - (1 - q)| ≤ 1 / s.length := by
  have hsle : s.Pairwise (· ≤ ·) := hsorted.imp le_of_lt
  have hnpos : 0 < s.length := List.length_pos.mpr hne
  have hn1 : (1 : ℚ) ≤ (s.length : ℚ) := by exact_mod_cast hnpos
  have hr0 : 0 ≤ q * ((s.length : ℚ) - 1) := mul_nonneg hq0 (by linarith)
  have hTdef := quantileLinear_sorted_eq s hsle q
  obtain ⟨k, hkdef⟩ :
      ∃ k, (Int.floor (q * ((s.length : ℚ) - 1))).toNat = k := ⟨_, rfl⟩
  rw [hkdef] at hTdef
  have hkcast : (k : ℚ) = ((Int.floor (q * ((s.length : ℚ) - 1))) : ℚ) := by
    rw [← hkdef]
    exact_mod_cast Int.toNat_of_nonneg (Int.floor_nonneg.mpr hr0)
  have hfl : (k : ℚ) ≤ q * ((s.length : ℚ) - 1) := by
    rw [hkcast]
    exact Int.floor_le _
  have hfu : q * ((s.length : ℚ) - 1) < (k : ℚ) + 1 := by
    rw [hkcast]
    exact Int.lt_floor_add_one _
  have hr_le : q * ((s.length : ℚ) - 1) ≤ (s.length : ℚ) - 1 :=
    mul_le_of_le_one_left (by linarith) hq1
  have hkn : k < s.length := by
    have h1 : (k : ℚ) < (s.length : ℚ) := by linarith
    exact_mod_cast h1
  have ha : s.getD k 0 = s[k] := List.getD_eq_getElem s 0 hkn
  have hcount_le : s.countP (fun x => decide (x ≤ quantileLinear s q))
      = k + 1 := by
    by_cases hcase : k + 1 < s.length
    · have hmin : min (k + 1) (s.length - 1) = k + 1 := by omega
      have hb : s.getD (min (k + 1) (s.length - 1)) 0 = s[k + 1] := by
        rw [hmin]
        exact List.getD_eq_getElem s 0 hcase
      have hab : s[k] < s[k + 1] :=
        List.pairwise_iff_getElem.mp hsorted k (k + 1) hkn hcase (by omega)
      have hf0 : 0 ≤ q * ((s.length : ℚ) - 1) - (k : ℚ) := by linarith
      have hf1 : q * ((s.length : ℚ) - 1) - (k : ℚ) < 1 := by linarith
      have hlow : s[k] ≤ quantileLinear s q := by
        rw [hTdef, ha, hb]
        nlinarith [mul_nonneg hf0 (le_of_lt (sub_pos.mpr hab))]
      have hhigh : quantileLinear s q < s[k + 1] := by
        rw [hTdef, ha, hb]
        nlinarith [mul_pos (by linarith : (0 : ℚ)
            < 1 - (q * ((s.length : ℚ) - 1) - (k : ℚ)))
          (sub_pos.mpr hab)]
      exact countP_le_sorted s _ k hsorted hkn hlow (fun _ => hhigh)
    · have hmin : min (k + 1) (s.length - 1) = k := by omega
      have hb : s.getD (min (k + 1) (s.length - 1)) 0 = s[k] := by
        rw [hmin, ha]
      have hT : quantileLinear s q = s[k] := by
        rw [hTdef, ha, hb]
        ring
      exact countP_le_sorted s _ k hsorted hkn (le_of_eq hT.symm)
        (fun h1 => absurd h1 hcase)
  have hcount_gt : s.countP (fun x => decide (quantileLinear s q < x))
      = s.length - (k + 1) := by
    have hsum := countP_le_add_countP_gt s (quantileLinear s q)
    omega
  rw [hcount_gt]
  have hcast : ((s.length - (k + 1) : ℕ) : ℚ)
      = (s.length : ℚ) - (k : ℚ) - 1 := by
    have hk1n : k + 1 ≤ s.length := hkn
    push_cast [Nat.cast_sub hk1n]
    ring
  rw [hcast]
  have hnQ : (0 : ℚ) < (s.length : ℚ) := by exact_mod_cast hnpos
  have heq : ((s.length : ℚ) - (k : ℚ) - 1) / (s.length : ℚ) - (1 - q)
      = (q * (s.length : ℚ) - (k : ℚ) - 1) / (s.length : ℚ) := by
    field_simp
    ring
  rw [heq, abs_div, abs_of_pos hnQ, div_le_div_iff_of_pos_right hnQ]
  rw [abs_le]
  have hexp : q * ((s.length : ℚ) - 1) = q * (s.length : ℚ) - q := by ring
  rw [hexp] at hfl hfu
  constructor
  · linarith
  · linarith

/-- Quantile-proportion property for an arbitrary column with pairwise
distinct values: the fraction of values strictly above the q-th linear
quantile is within `1/n` of `1 - q`. -/
theorem quantile_label_one_bound (vs : List ℚ) (q : ℚ)
    (hnd : vs.Pairwise (· ≠ ·)) (hne : vs ≠ []) (hq0 : 0 ≤ q)
    (hq1 : q ≤ 1) :
    |((vs.countP (fun x => decide (quantileLinear vs q < x)) : ℚ))
        / vs.length - (1 - q)| ≤ 1 / vs.length := by
  have hperm : (List.insertionSort (· ≤ ·) vs).Perm vs :=
    List.perm_insertionSort _ _
  have hsorted : (List.insertionSort (· ≤ ·) vs).Pairwise (· < ·) := by
    have h1 : (List.insertionSort (· ≤ ·) vs).Pairwise (· ≤ ·) :=
      List.sorted_insertionSort _ _
    have h2 : (List.insertionSort (· ≤ ·) vs).Nodup := hperm.nodup_iff.mpr hnd
    exact (h1.and h2).imp (fun h => lt_of_le_of_ne h.1 h.2)
  have hs_ne : List.insertionSort (· ≤ ·) vs ≠ [] := by
    intro h
    apply hne
    have := hperm.length_eq
    rw [h] at this
    exact List.length_eq_zero.mp this.symm
  rw [quantileLinear_eq_sorted vs q, ← hperm.countP_eq, ← hperm.length_eq]
  exact quantile_label_bound_sorted _ q hsorted hs_ne hq0 hq1

/-- Claim C4 (counterexample): on the constant column of `dfConst` every
row's score equals the 0.63 quantile, so every row is labeled 0 and the
label-1 proportion is 0 — not within floating-point tolerance (1e-9) of
`1 - 0.63 = 0.37`. -/
theorem C4_constant_column_cex :
    ((dfConst.map
        (fun r => (quantileSplitLabels dfConst r).Computer_Skill_Label)).count 1
        : ℚ) / dfConst.length = 0 ∧
    ¬(|(0 : ℚ) - (1 - 63 / 100)| ≤ 1 / 1000000000) := by
  constructor

  · have hlab : dfConst.map
        (fun r => (quantileSplitLabels dfConst r).Computer_Skill_Label)
        = [0, 0, 0, 0] := by
      norm_num [dfConst, rowAll, addGainColumns, quantileSplitLabels,
        quantileLinear, List.insertionSort, List.orderedInsert]
    rw [hlab]
    norm_num
  · rw [abs_le]
    norm_num

/-- Claim C4 (amended): for the three access label columns — whose quantile
source column is the labeled score column itself — if the column's values
are pairwise distinct, then the label-1 proportion is within `1/n` of
`1 - q` (q = 0.63, 0.56, 0.69); with ties (or for the cross-column gain
labels) no such bound holds, and the exact-tolerance form is false. -/
theorem C4_quantile_proportion (df : List RowG) (hne : df ≠ []) :
    ((df.map (·.Basic_Computer_Knowledge_Score)).Pairwise (· ≠ ·) →
      |((df.map
            (fun r => (quantileSplitLabels df r).Computer_Skill_Label)).count 1
            : ℚ) / df.length - (1 - 63 / 100)| ≤ 1 / df.length) ∧
    ((df.map (·.Internet_Usage_Score)).Pairwise (· ≠ ·) →
      |((df.map
            (fun r => (quantileSplitLabels df r).Internet_Usage_Label)).count 1
            : ℚ) / df.length - (1 - 56 / 100)| ≤ 1 / df.length) ∧
    ((df.map (·.Mobile_Literacy_Score)).Pairwise (· ≠ ·) →
      |((df.map
            (fun r => (quantileSplitLabels df r).Mobile_Literacy_Label)).count 1
            : ℚ) / df.length - (1 - 69 / 100)| ≤ 1 / df.length) := by
  have hmapne : ∀ f : RowG → ℚ, df.map f ≠ [] := by
    intro f h
    exact hne (List.map_eq_nil_iff.mp h)
  refine ⟨fun hnd => ?_, fun hnd => ?_, fun hnd => ?_⟩
  · have hcomp : df.map
        (fun r => (quantileSplitLabels df r).Computer_Skill_Label)
        = (df.map (·.Basic_Computer_Knowledge_Score)).map
            (fun x => if x ≤ quantileLinear
                (df.map (·.Basic_Computer_Knowledge_Score)) (63 / 100)
              then (0 : ℕ) else 1) := by
      rw [List.map_map]
      rfl
    rw [hcomp, count_one_map_threshold,
      show df.length = (df.map (·.Basic_Computer_Knowledge_Score)).length from
        (List.length_map _ _).symm]
    exact quantile_label_one_bound _ _ hnd (hmapne _) (by norm_num)
      (by norm_num)
  · have hcomp : df.map
        (fun r => (quantileSplitLabels df r).Internet_Usage_Label)
        = (df.map (·.Internet_Usage_Score)).map
            (fun x => if x ≤ quantileLinear
                (df.map (·.Internet_Usage_Score)) (56 / 100)
              then (0 : ℕ) else 1) := by
      rw [List.map_map]
      rfl
    rw [hcomp, count_one_map_threshold,
      show df.length = (df.map (·.Internet_Usage_Score)).length from
        (List.length_map _ _).symm]
    exact quantile_label_one_bound _ _ hnd (hmapne _) (by norm_num)
      (by norm_num)
  · have hcomp : df.map
        (fun r => (quantileSplitLabels df r).Mobile_Literacy_Label)
        = (df.map (·.Mobile_Literacy_Score)).map
            (fun x => if x ≤ quantileLinear
                (df.map (·.Mobile_Literacy_Score)) (69 / 100)
              then (0 : ℕ) else 1) := by
      rw [List.map_map]
      rfl
    rw [hcomp, count_one_map_threshold,
      show df.length = (df.map (·.Mobile_Literacy_Score)).length from
        (List.length_map _ _).symm]
    exact quantile_label_one_bound _ _ hnd (hmapne _) (by norm_num)
      (by norm_num)

/-- Claim C4 (witness): the bound at the distinct-valued dataset
`dfDistinct` and the computer access column. -/
theorem C4_quantile_proportion_witness :
    |((dfDistinct.map
          (fun r => (quantileSplitLabels dfDistinct r).Computer_Skill_Label)).count 1
          : ℚ) / dfDistinct.length - (1 - 63 / 100)| ≤ 1 / dfDistinct.length :=
  (C4_quantile_proportion dfDistinct (by simp [dfDistinct])).1
    (by norm_num [dfDistinct, rowAll, addGainColumns, List.pairwise_cons])

end EduGap
